import Mathlib

/-!
Verification of the dystonse-gtfs-importer core against its specification.

The definitions below are shallow embeddings of the Rust sources:
machine integers become `Nat`/`Int` (with explicit `% 2 ^ w` where a cast
truncates), fallible code returns `Option`/`Except`, and `f32` values in
the curve analyser become `ℚ`.
-/

namespace GtfsImporter

/-! ## Temporal classifier (src/analyser/time_slots.rs)

`chrono::Weekday::num_days_from_monday` maps Mon..Sun to 0..6, so a
weekday is embedded as `Fin 7`.  A `NaiveDateTime` is embedded by the
components the classifier reads: weekday, hour and minute. -/

structure DateTime where
  daysFromMonday : Fin 7
  hour : Fin 24
  minute : Fin 60
deriving DecidableEq

structure TimeSlot where
  id : Nat
  minWeekday : Fin 7
  maxWeekday : Fin 7
  minHour : Nat
  maxHour : Nat
deriving DecidableEq

def TimeSlot.WORKDAY_MORNING : TimeSlot :=
  { id := 1, minWeekday := 0, maxWeekday := 4, minHour := 4, maxHour := 6 }

def TimeSlot.WORKDAY_MORNING_RUSH : TimeSlot :=
  { id := 2, minWeekday := 0, maxWeekday := 4, minHour := 6, maxHour := 8 }

def TimeSlot.WORKDAY_LATE_MORNING : TimeSlot :=
  { id := 3, minWeekday := 0, maxWeekday := 4, minHour := 8, maxHour := 12 }

def TimeSlot.WORKDAY_NOON_RUSH : TimeSlot :=
  { id := 4, minWeekday := 0, maxWeekday := 4, minHour := 12, maxHour := 14 }

def TimeSlot.WORKDAY_AFTERNOON : TimeSlot :=
  { id := 5, minWeekday := 0, maxWeekday := 4, minHour := 14, maxHour := 16 }

def TimeSlot.WORKDAY_AFTERNOON_RUSH : TimeSlot :=
  { id := 6, minWeekday := 0, maxWeekday := 4, minHour := 16, maxHour := 18 }

def TimeSlot.WORKDAY_EVENING : TimeSlot :=
  { id := 7, minWeekday := 0, maxWeekday := 4, minHour := 18, maxHour := 20 }

def TimeSlot.SATURDAY_DAY : TimeSlot :=
  { id := 8, minWeekday := 5, maxWeekday := 5, minHour := 4, maxHour := 20 }

def TimeSlot.SUNDAY_DAY : TimeSlot :=
  { id := 9, minWeekday := 6, maxWeekday := 6, minHour := 4, maxHour := 20 }

def TimeSlot.NIGHT_BEFORE_WORKDAY : TimeSlot :=
  { id := 10, minWeekday := 6, maxWeekday := 3, minHour := 20, maxHour := 4 }

def TimeSlot.NIGHT_BEFORE_WEEKEND_DAY : TimeSlot :=
  { id := 11, minWeekday := 4, maxWeekday := 5, minHour := 20, maxHour := 4 }

def TimeSlot.TIME_SLOTS : List TimeSlot :=
  [ TimeSlot.WORKDAY_MORNING,
    TimeSlot.WORKDAY_MORNING_RUSH,
    TimeSlot.WORKDAY_LATE_MORNING,
    TimeSlot.WORKDAY_NOON_RUSH,
    TimeSlot.WORKDAY_AFTERNOON,
    TimeSlot.WORKDAY_AFTERNOON_RUSH,
    TimeSlot.WORKDAY_EVENING,
    TimeSlot.SATURDAY_DAY,
    TimeSlot.SUNDAY_DAY,
    TimeSlot.NIGHT_BEFORE_WORKDAY,
    TimeSlot.NIGHT_BEFORE_WEEKEND_DAY ]

/-- `TimeSlot::matches` (time_slots.rs lines 139-172): a simple in-range
case and a wrapping case, for the weekday and for the hour. -/
def TimeSlot.matches (ts : TimeSlot) (dt : DateTime) : Bool :=
  let d := dt.daysFromMonday.val
  let h := dt.hour.val
  let day : Bool :=
    (decide (ts.minWeekday.val ≤ d) && decide (d ≤ ts.maxWeekday.val))
    || (decide (ts.maxWeekday.val < ts.minWeekday.val)
        && (decide (ts.minWeekday.val ≤ d) || decide (d ≤ ts.maxWeekday.val)))
  let hour : Bool :=
    (decide (ts.minHour ≤ h) && decide (h < ts.maxHour))
    || (decide (ts.maxHour < ts.minHour)
        && (decide (ts.minHour ≤ h) || decide (h < ts.maxHour)))
  day && hour

/-- `TimeSlot::from_datetime` (time_slots.rs lines 127-136): first slot in
`TIME_SLOTS` that matches; `none` models the `panic!` fallthrough. -/
def TimeSlot.fromDatetime (dt : DateTime) : Option TimeSlot :=
  TimeSlot.TIME_SLOTS.find? (fun ts => ts.matches dt)

/-! ## Upsert semantics of the record statements
(src/importer/per_schedule_importer.rs, `init_record_statements`,
lines 265-313)

The writer executes, for every parameter set, first the UPDATE statement
(guarded by `time_of_recording < FROM_UNIXTIME(:time_of_recording)`) and
then the INSERT IGNORE statement.  For one fixed primary key
(source, route_id, route_variant, trip_id, date, stop_sequence) the table
state is the optional stored row; a row carries the non-key columns. -/

structure RtRow where
  stopId : String
  timeOfRecording : Nat
  delayArrival : Option Int
  delayDeparture : Option Int
  scheduleFileName : String
deriving DecidableEq

/-- The UPDATE statement: overwrites the stored row with the new values
only when the stored `time_of_recording` is strictly older. -/
def applyUpdate (st : Option RtRow) (w : RtRow) : Option RtRow :=
  match st with
  | none => none
  | some r => if r.timeOfRecording < w.timeOfRecording then some w else some r

/-- The INSERT IGNORE statement: creates the row when the key is absent,
does nothing otherwise. -/
def applyInsertIgnore (st : Option RtRow) (w : RtRow) : Option RtRow :=
  match st with
  | none => some w
  | some r => some r

/-- One write for the key: UPDATE followed by INSERT IGNORE. -/
def applyWrite (st : Option RtRow) (w : RtRow) : Option RtRow :=
  applyInsertIgnore (applyUpdate st w) w

/-- A sequence of writes applied in order. -/
def applyWrites (st : Option RtRow) (ws : List RtRow) : Option RtRow :=
  ws.foldl applyWrite st

/-! ## Event correlator (src/importer/per_schedule_importer.rs) -/

inductive EventType where
  | arrival
  | departure
deriving DecidableEq

/-- A schedule stop-time: `stop_sequence` is a `u16` in `gtfs_structures`,
the event times are optional seconds from midnight (`u32`). -/
structure StopTimeModel where
  stopSequence : Nat
  arrivalTime : Option Nat
  departureTime : Option Nat
deriving DecidableEq

/-- `GetByEventType::get_time` (src/types/event_type.rs): departure time
for a departure event, arrival time otherwise. -/
def StopTimeModel.getTime (st : StopTimeModel) (et : EventType) : Option Nat :=
  if et = EventType.departure then st.departureTime else st.arrivalTime

structure TripModel where
  id : String
  routeVariant : Option String
  stopTimes : List StopTimeModel
deriving DecidableEq

/-- `gtfs_rt::trip_update::StopTimeEvent`: the correlator reads only the
optional `delay` (an `i32`). -/
structure StopTimeEvent where
  delay : Option Int
deriving DecidableEq

/-- `gtfs_rt::trip_update::StopTimeUpdate`, restricted to the fields the
importer reads.  `stop_sequence` is a `u32`. -/
structure StopTimeUpdate where
  stopId : Option String
  stopSequence : Option Nat
  arrival : Option StopTimeEvent
  departure : Option StopTimeEvent
deriving DecidableEq

/-- Selects the update's arrival or departure `StopTimeEvent`, mirroring
the two explicit field accesses in `process_stop_time_update`. -/
def StopTimeUpdate.event (u : StopTimeUpdate) : EventType → Option StopTimeEvent
  | EventType.arrival => u.arrival
  | EventType.departure => u.departure

/-- The opposite event kind (statement helper). -/
def EventType.other : EventType → EventType
  | EventType.arrival => EventType.departure
  | EventType.departure => EventType.arrival

/-- The (schedule, estimate, delay) triple of `EventTimes`. -/
structure EventTimes where
  schedule : Option Int
  estimate : Option Int
  delay : Option Int
deriving DecidableEq

def EventTimes.empty : EventTimes := ⟨none, none, none⟩

def EventTimes.isEmpty (e : EventTimes) : Bool :=
  e.schedule.isNone && e.estimate.isNone && e.delay.isNone

/-- `PerScheduleImporter::get_event_times` (lines 229-263).
`startDate` is the service-date midnight as a unix timestamp
(`start_date.timestamp()`).  The schedule lookup compares the schedule's
`u16` stop_sequence with the update's `u32` cast to `u16`, hence the
`% 65536`.  A `none` result models the panic of
`event_time.expect("no arrival time")`; every returned value is `some`. -/
def getEventTimes (event : Option StopTimeEvent) (startDate : Int)
    (eventType : EventType) (scheduleTrip : TripModel) (stopSequence : Nat) :
    Option EventTimes :=
  match event with
  | none => some EventTimes.empty
  | some ev =>
    match ev.delay with
    | none => some EventTimes.empty
    | some delay =>
      match scheduleTrip.stopTimes.find?
          (fun st => st.stopSequence == stopSequence % 65536) with
      | none => some EventTimes.empty
      | some stopTime =>
        match stopTime.getTime eventType with
        | none => none
        | some t =>
          let schedule := startDate + (t : Int)
          let estimate := schedule + delay
          some { schedule := some schedule, estimate := some estimate,
                 delay := some delay }

/-- The per-trip context threaded into `process_stop_time_update`: the
importer's source tag and schedule filename, the trip update's ids, the
feed header timestamp and the parsed `start_date`, and the matched
schedule trip. -/
structure ImportCtx where
  source : String
  routeId : String
  tripId : String
  filename : String
  timeOfRecording : Nat
  startDate : Int
  scheduleTrip : TripModel
deriving DecidableEq

/-- One parameter set handed to the record statements
(the `params!` block of `process_stop_time_update`, lines 212-224). -/
structure ParamSet where
  source : String
  routeId : String
  routeVariant : String
  tripId : String
  date : Int
  stopSequence : Nat
  stopId : String
  timeOfRecording : Nat
  delayArrival : Option Int
  delayDeparture : Option Int
  scheduleFileName : String
deriving DecidableEq

/-- Selects the parameter set's arrival or departure delay column
(statement helper). -/
def ParamSet.delayOf (p : ParamSet) : EventType → Option Int
  | EventType.arrival => p.delayArrival
  | EventType.departure => p.delayDeparture

/-- `PerScheduleImporter::process_stop_time_update` (lines 177-227).
Outer `none` models a panic inside `get_event_times`;
`Except.error` models the `?`-propagated row errors;
`Except.ok none` is the `return Ok(0)` row-skip when both event-time
triples are empty; `Except.ok (some p)` is `Ok(1)` with the emitted
parameter set. -/
def processStopTimeUpdate (u : StopTimeUpdate) (ctx : ImportCtx) :
    Option (Except String (Option ParamSet)) :=
  match u.stopId with
  | none => some (Except.error "no stop_id")
  | some stopId =>
    match u.stopSequence with
    | none => some (Except.error "no stop_sequence")
    | some stopSequence =>
      match getEventTimes u.arrival ctx.startDate EventType.arrival
          ctx.scheduleTrip stopSequence with
      | none => none
      | some arrival =>
        match getEventTimes u.departure ctx.startDate EventType.departure
            ctx.scheduleTrip stopSequence with
        | none => none
        | some departure =>
          if arrival.isEmpty && departure.isEmpty then
            some (Except.ok none)
          else
            match ctx.scheduleTrip.routeVariant with
            | none => some (Except.error "no route variant")
            | some routeVariant =>
              some (Except.ok (some
                { source := ctx.source
                  routeId := ctx.routeId
                  routeVariant := routeVariant
                  tripId := ctx.tripId
                  date := ctx.startDate
                  stopSequence := stopSequence
                  stopId := stopId
                  timeOfRecording := ctx.timeOfRecording
                  delayArrival := arrival.delay
                  delayDeparture := departure.delay
                  scheduleFileName := ctx.filename }))

/-- The `for stop_time_update in &trip_update.stop_time_update` loop of
`process_trip_update` (lines 162-172): counts successes and collects the
emitted parameter sets; a row error aborts the trip update via `?`, a
panic (outer `none`) aborts everything. -/
def processStopTimeUpdates (us : List StopTimeUpdate) (ctx : ImportCtx) :
    Option (Except String (Nat × List ParamSet)) :=
  match us with
  | [] => some (Except.ok (0, []))
  | u :: rest =>
    match processStopTimeUpdate u ctx with
    | none => none
    | some (Except.error e) => some (Except.error e)
    | some (Except.ok r) =>
      match processStopTimeUpdates rest ctx with
      | none => none
      | some (Except.error e) => some (Except.error e)
      | some (Except.ok (n, ps)) =>
        some (Except.ok (n + (if r.isSome then 1 else 0), r.toList ++ ps))

/-! ## Batched writer (src/importer.rs, `BatchedInsertions`) -/

def MAX_BATCH_SIZE : Nat := 1000

/-- Result of a flush attempt: whether the call returned `Ok`, the
parameter buffer afterwards, and whether the transaction committed. -/
structure FlushOutcome (α : Type) where
  ok : Bool
  buffer : List α
  committed : Bool
deriving DecidableEq

/-- `BatchedInsertions::write_to_database` (lines 310-316).  `execOk`
abstracts whether `exec_batch` succeeds, `commitOk` whether `commit`
succeeds.  The source clears `params_vec` after a successful
`exec_batch` and before `commit`. -/
def writeToDatabase (buf : List α) (execOk commitOk : Bool) :
    FlushOutcome α :=
  if execOk = false then { ok := false, buffer := buf, committed := false }
  else if commitOk = false then { ok := false, buffer := [], committed := false }
  else { ok := true, buffer := [], committed := true }

/-- `BatchedInsertions::add_insertion` (lines 302-308): push, then flush
when the buffer holds more than `MAX_BATCH_SIZE` sets. -/
def addInsertion (buf : List α) (p : α) (execOk commitOk : Bool) :
    FlushOutcome α :=
  let buf2 := buf ++ [p]
  if MAX_BATCH_SIZE < buf2.length then writeToDatabase buf2 execOk commitOk
  else { ok := true, buffer := buf2, committed := false }

/-! ## Directory orchestrator (src/importer/mod.rs, `process_all_files`,
lines 288-387)

File dates (`NaiveDate` parsed from the `YYYY-MM-DD` in the filename) are
embedded as `Nat`.  `process_all_files` takes the first (alphabetically
earliest) schedule's date as `oldest_schedule_date`, reverses the
schedule list, and for each realtime file either skips it (date ≤ oldest)
or groups it with the first schedule in the reversed list whose date is
strictly below the realtime date. -/

/-- Which schedule a realtime file with date `rtDate` is grouped with:
`none` means the file is skipped. `scheduleDates` is the alphabetically
(= chronologically) sorted schedule list. -/
def assignSchedule (scheduleDates : List Nat) (rtDate : Nat) : Option Nat :=
  match scheduleDates.head? with
  | none => none
  | some oldest =>
    if rtDate ≤ oldest then none
    else scheduleDates.reverse.find? (fun sd => sd < rtDate)

/-! ## Curve consumer stop-pair join
(src/analyser/default_curves.rs, `create_curves_for_route_variant`,
lines 600-622; the live copy of this code is `analyser/curves.rs`) -/

/-- A `DbItem` row as read back from the `realtime` table. -/
structure DbItem where
  delayArrival : Option Int
  delayDeparture : Option Int
  date : Option Nat
  tripId : String
  stopId : String
  routeVariant : Nat
deriving DecidableEq

/-- The join key test `row_s.date == row_e.date && row_s.trip_id ==
row_e.trip_id`. -/
def sameVehicle (a b : DbItem) : Bool :=
  a.date == b.date && a.tripId == b.tripId

/-- The body guarded by the delay checks (t = 3000): both delays must be
present and strictly inside (-3000, 3000); the kept delays are
`(d / 12) * 12` with Rust `i32` division, which truncates toward zero
(`Int.tdiv`). -/
def pairFor (rowS rowE : DbItem) : List (Int × Int) :=
  match rowS.delayDeparture, rowE.delayArrival with
  | some ds, some de =>
    if ds < 3000 && -3000 < ds && de < 3000 && -3000 < de then
      [(ds.tdiv 12 * 12, de.tdiv 12 * 12)]
    else []
  | _, _ => []

/-- The inner `for row_e in &rows_matching_end` loop: scanning in order
and `break`-ing after the first row with the same (date, trip_id) is the
`find?` of that key; the found row contributes its pair when the delay
checks pass. -/
def innerJoin (rowS : DbItem) (rowsEnd : List DbItem) : List (Int × Int) :=
  match rowsEnd.find? (fun rowE => sameVehicle rowS rowE) with
  | some rowE => pairFor rowS rowE
  | none => []

/-- The double loop building `matching_pairs`. -/
def matchingPairs (rowsStart rowsEnd : List DbItem) : List (Int × Int) :=
  rowsStart.foldr (fun rowS acc => innerJoin rowS rowsEnd ++ acc) []

/-- Modelled from the spec: "round each delay to the nearest multiple of
12 s" (spec section 4.8).  Used only to compare the spec's wording with
the source's truncating division; ties round up. -/
def roundToNearestMultipleOf12 (d : Int) : Int :=
  12 * ((d + 6).fdiv 12)

/-! ## Marker placement (src/analyser/default_curves.rs,
`DefaultCurveCreator::recurse`, lines 748-780, and the marker list set up
in `generate_curves_for_stop_pair`, lines 688-693)

`f32` values are embedded as `ℚ`.  The inbound-delay curve enters only
through its `y_at_x` and `x_at_y` operations (the `IrregularDynamicCurve`
type lives in the external dystonse-curves crate), so the embedding takes
the two operations as function arguments.  The Rust recursion pushes into
a mutable vector in order `left, mid, right`, embedded here as list
concatenation; `fuel` bounds the recursion depth (each recursive call
shrinks `upper - lower` by at least 20, so the Rust recursion equals the
embedding for every sufficiently large `fuel`). -/

def recurse (yAtX xAtY : ℚ → ℚ) (count : ℚ) :
    Nat → ℚ → ℚ → List ℚ
  | 0, _, _ => []
  | fuel + 1, lower, upper =>
    let minXByDelay := lower + 20
    let maxXByDelay := upper - 20
    let lowerY := yAtX lower
    let upperY := yAtX upper
    let minYByCount := lowerY + 20 / count
    let maxYByCount := upperY - 20 / count
    let minXByCount := xAtY minYByCount
    let maxXByCount := xAtY maxYByCount
    let minX := max minXByDelay minXByCount
    let maxX := min maxXByDelay maxXByCount
    if minX ≤ maxX then
      let midX := (minX + maxX) / 2
      recurse yAtX xAtY count fuel lower midX
        ++ midX :: recurse yAtX xAtY count fuel midX upper
    else []

/-- The full marker list of `generate_curves_for_stop_pair`: the curve's
`min_x` twice, the recursion's markers, the curve's `max_x` twice. -/
def markerList (yAtX xAtY : ℚ → ℚ) (count : ℚ) (fuel : Nat)
    (minX maxX : ℚ) : List ℚ :=
  minX :: minX :: (recurse yAtX xAtY count fuel minX maxX ++ [maxX, maxX])

/-- Spacing property between two consecutive markers `a < b`: at least
20 seconds apart on the x axis and at least 20 data points apart on the
inbound curve (y-span at least 20 / count). -/
def markerRel (yAtX : ℚ → ℚ) (count : ℚ) (a b : ℚ) : Prop :=
  20 ≤ b - a ∧ 20 / count ≤ yAtX b - yAtX a

/-! ## Theorems -/

/-- Helper for C2: at hour granularity, exactly one of the eleven slots
matches (the classifier never reads the minute). -/
theorem timeSlot_unique_per_hour : ∀ (d : Fin 7) (h : Fin 24),
    (TimeSlot.TIME_SLOTS.filter (fun ts => ts.matches ⟨d, h, 0⟩)).length = 1 ∧
    (TimeSlot.fromDatetime ⟨d, h, 0⟩).isSome = true := by decide

/-- C2: for every weekday, hour and minute of a calendar week, exactly
one of the eleven TimeSlot constants matches, so `from_datetime` returns
a slot and never reaches its panic branch. -/
theorem c2_time_slot_totality : ∀ (d : Fin 7) (h : Fin 24) (m : Fin 60),
    (TimeSlot.TIME_SLOTS.filter (fun ts => ts.matches ⟨d, h, m⟩)).length = 1 ∧
    (TimeSlot.fromDatetime ⟨d, h, m⟩).isSome = true := by
  intro d h m
  exact timeSlot_unique_per_hour d h

/-- C7 counterexample: Sunday (6 days from Monday) 23:30 is mapped to
slot 10 (night before a workday), not to slot 11 as the claim states. -/
theorem c7_counterexample :
    (TimeSlot.fromDatetime ⟨6, 23, 30⟩).map TimeSlot.id = some 10 ∧
    ¬ (TimeSlot.fromDatetime ⟨6, 23, 30⟩).map TimeSlot.id = some 11 := by decide

/-- C7 (amended): Sunday 23:30 maps to slot 10, Thursday 21:00 to
slot 10, Saturday 10:00 to slot 8 and Tuesday 07:00 to slot 2. -/
theorem c7_time_slot_mapping :
    (TimeSlot.fromDatetime ⟨6, 23, 30⟩).map TimeSlot.id = some 10 ∧
    (TimeSlot.fromDatetime ⟨3, 21, 0⟩).map TimeSlot.id = some 10 ∧
    (TimeSlot.fromDatetime ⟨5, 10, 0⟩).map TimeSlot.id = some 8 ∧
    (TimeSlot.fromDatetime ⟨1, 7, 0⟩).map TimeSlot.id = some 2 := by decide

/-- Helper for C1: starting from a stored row `r`, a sequence of writes
with pairwise distinct recording times ends in the overall freshest
row. -/
theorem applyWrites_some_max : ∀ (ws : List RtRow) (r w : RtRow),
    (r :: ws).Pairwise (fun a b => a.timeOfRecording ≠ b.timeOfRecording) →
    w ∈ r :: ws →
    (∀ w2 ∈ r :: ws, w2.timeOfRecording ≤ w.timeOfRecording) →
    applyWrites (some r) ws = some w := by
  intro ws
  induction ws with
  | nil =>
    intro r w _hp hmem _hmax
    have : w = r := by simpa using hmem
    simp [applyWrites, this]
  | cons a ws ih =>
    intro r w hp hmem hmax
    rw [List.pairwise_cons] at hp
    obtain ⟨hr, hp2⟩ := hp
    rw [List.pairwise_cons] at hp2
    obtain ⟨ha, hpws⟩ := hp2
    have hra : r.timeOfRecording ≠ a.timeOfRecording :=
      hr a (List.mem_cons_self a ws)
    have step : applyWrites (some r) (a :: ws)
        = applyWrites (applyWrite (some r) a) ws := rfl
    rw [step]
    by_cases hlt : r.timeOfRecording < a.timeOfRecording
    · have hw : applyWrite (some r) a = some a := by
        simp [applyWrite, applyUpdate, applyInsertIgnore, hlt]
      rw [hw]
      apply ih a w
      · exact List.Pairwise.cons ha hpws
      · simp only [List.mem_cons] at hmem
        rcases hmem with h | h | h
        · exfalso
          subst h
          have := hmax a (by simp)
          omega
        · exact List.mem_cons.mpr (Or.inl h)
        · exact List.mem_cons_of_mem a h
      · intro w2 hw2
        apply hmax w2
        simp only [List.mem_cons] at hw2 ⊢
        tauto
    · have hw : applyWrite (some r) a = some r := by
        simp [applyWrite, applyUpdate, applyInsertIgnore, hlt]
      rw [hw]
      apply ih r w
      · refine List.Pairwise.cons ?_ hpws
        intro b hb
        exact hr b (List.mem_cons_of_mem a hb)
      · simp only [List.mem_cons] at hmem
        rcases hmem with h | h | h
        · exact List.mem_cons.mpr (Or.inl h)
        · exfalso
          subst h
          have := hmax r (by simp)
          omega
        · exact List.mem_cons_of_mem r h
      · intro w2 hw2
        apply hmax w2
        simp only [List.mem_cons] at hw2 ⊢
        tauto

/-- C1 (amended): when the writes for one primary key carry pairwise
distinct `time_of_recording` values, applying them in any order through
the UPDATE-then-INSERT-IGNORE pair leaves exactly the write with the
largest `time_of_recording`.  (With equal recording times, as happens for
one key written twice from one file, the first-applied write wins; see
the counterexample.) -/
theorem c1_upsert_freshness : ∀ (ws : List RtRow) (w : RtRow),
    ws.Pairwise (fun a b => a.timeOfRecording ≠ b.timeOfRecording) →
    w ∈ ws →
    (∀ w2 ∈ ws, w2.timeOfRecording ≤ w.timeOfRecording) →
    applyWrites none ws = some w := by
  intro ws w hp hmem hmax
  match ws with
  | [] => exact absurd hmem (List.not_mem_nil w)
  | w0 :: rest =>
    have step : applyWrites none (w0 :: rest)
        = applyWrites (some w0) rest := rfl
    rw [step]
    exact applyWrites_some_max rest w0 w hp hmem hmax

/-- C1 witness: for two writes with distinct recording times the freshest
row is persisted in either application order. -/
theorem c1_witness :
    (let w1 : RtRow := ⟨"S2", 1700000000, some 30, some 45, "sched"⟩
     let w2 : RtRow := ⟨"S2", 1700000100, some 50, some 45, "sched"⟩
     applyWrites none [w1, w2] = some w2 ∧ applyWrites none [w2, w1] = some w2) := by
  constructor
  · exact c1_upsert_freshness _ _ (by decide) (by decide) (by decide)
  · exact c1_upsert_freshness _ _ (by decide) (by decide) (by decide)

/-- C1 counterexample: two writes for the same primary key with the same
`time_of_recording` (exactly the situation of one key written twice from
one file, whose rows share the header timestamp).  The persisted row is
the FIRST-applied write, not the later-arriving one: the UPDATE's strict
`time_of_recording < :time_of_recording` guard does not fire and the
INSERT IGNORE is ignored. -/
theorem c1_counterexample :
    (applyWrites none
      [⟨"S2", 1700000000, some 30, none, "sched"⟩,
       ⟨"S2", 1700000000, some 50, none, "sched"⟩]
      = some ⟨"S2", 1700000000, some 30, none, "sched"⟩) ∧
    ¬ (applyWrites none
      [⟨"S2", 1700000000, some 30, none, "sched"⟩,
       ⟨"S2", 1700000000, some 50, none, "sched"⟩]
      = some ⟨"S2", 1700000000, some 50, none, "sched"⟩) := by
  decide


/-- Helper for C3: with the event's delay present and a matching
schedule stop-time whose time is defined, `get_event_times` returns the
triple (schedule, schedule + delay, delay). -/
theorem getEventTimes_delay_found
    (sd : Int) (et : EventType) (trip : TripModel) (ss : Nat) (d : Int)
    (s : Nat) (st : StopTimeModel)
    (hfind : trip.stopTimes.find? (fun x => x.stopSequence == ss % 65536) = some st)
    (htime : st.getTime et = some s) :
    getEventTimes (some ⟨some d⟩) sd et trip ss
      = some ⟨some (sd + s), some (sd + s + d), some d⟩ := by
  simp [getEventTimes, hfind, htime]

/-- C3: for a stop_time_update event carrying delay `d` whose matching
schedule stop-time (equal stop_sequence) defines the scheduled time `s`,
the emitted triple is (midnight + s, midnight + s + d, d) - so
estimate - schedule = d - and the emitted parameter set persists exactly
`d` in the event's delay column (`delay_arrival` resp.
`delay_departure`). -/
theorem c3_correlation_identity
    (et : EventType) (ctx : ImportCtx) (u : StopTimeUpdate)
    (ss : Nat) (d : Int) (s : Nat) (st : StopTimeModel) (sid rv : String)
    (otherT : EventTimes)
    (hsid : u.stopId = some sid)
    (hss : u.stopSequence = some ss)
    (hev : u.event et = some ⟨some d⟩)
    (hfind : ctx.scheduleTrip.stopTimes.find?
        (fun x => x.stopSequence == ss % 65536) = some st)
    (htime : st.getTime et = some s)
    (hother : getEventTimes (u.event et.other) ctx.startDate et.other
        ctx.scheduleTrip ss = some otherT)
    (hrv : ctx.scheduleTrip.routeVariant = some rv) :
    getEventTimes (u.event et) ctx.startDate et ctx.scheduleTrip ss
      = some ⟨some (ctx.startDate + s), some (ctx.startDate + s + d), some d⟩
    ∧ ∃ p : ParamSet, processStopTimeUpdate u ctx = some (Except.ok (some p))
        ∧ p.delayOf et = some d
        ∧ p.delayOf et.other = otherT.delay := by
  have htriple : getEventTimes (u.event et) ctx.startDate et ctx.scheduleTrip ss
      = some ⟨some (ctx.startDate + s), some (ctx.startDate + s + d), some d⟩ := by
    rw [hev]
    exact getEventTimes_delay_found _ _ _ _ _ _ _ hfind htime
  refine ⟨htriple, ?_⟩
  cases et with
  | arrival =>
    have ha : getEventTimes u.arrival ctx.startDate EventType.arrival
        ctx.scheduleTrip ss
        = some ⟨some (ctx.startDate + s), some (ctx.startDate + s + d), some d⟩ := htriple
    have hd : getEventTimes u.departure ctx.startDate EventType.departure
        ctx.scheduleTrip ss = some otherT := hother
    refine ⟨{ source := ctx.source, routeId := ctx.routeId, routeVariant := rv,
              tripId := ctx.tripId, date := ctx.startDate, stopSequence := ss,
              stopId := sid, timeOfRecording := ctx.timeOfRecording,
              delayArrival := some d, delayDeparture := otherT.delay,
              scheduleFileName := ctx.filename }, ?_, rfl, rfl⟩
    simp [processStopTimeUpdate, hsid, hss, ha, hd, EventTimes.isEmpty, hrv]
  | departure =>
    have hd : getEventTimes u.departure ctx.startDate EventType.departure
        ctx.scheduleTrip ss
        = some ⟨some (ctx.startDate + s), some (ctx.startDate + s + d), some d⟩ := htriple
    have ha : getEventTimes u.arrival ctx.startDate EventType.arrival
        ctx.scheduleTrip ss = some otherT := hother
    refine ⟨{ source := ctx.source, routeId := ctx.routeId, routeVariant := rv,
              tripId := ctx.tripId, date := ctx.startDate, stopSequence := ss,
              stopId := sid, timeOfRecording := ctx.timeOfRecording,
              delayArrival := otherT.delay, delayDeparture := some d,
              scheduleFileName := ctx.filename }, ?_, rfl, rfl⟩
    simp [processStopTimeUpdate, hsid, hss, ha, hd, EventTimes.isEmpty, hrv]



/-- C3 witness: scenario S1 of the spec, arrival delay 30 at
stop_sequence 2 with scheduled arrival 28800 seconds after midnight. -/
theorem c3_witness :
    getEventTimes (some ⟨some 30⟩) 1699920000 EventType.arrival
        ⟨"T1", some "V1", [⟨2, some 28800, some 28830⟩]⟩ 2
      = some ⟨some (1699920000 + 28800), some (1699920000 + 28800 + 30), some 30⟩
    ∧ ∃ p : ParamSet,
        processStopTimeUpdate ⟨some "S2", some 2, some ⟨some 30⟩, some ⟨some 45⟩⟩
          ⟨"src", "R1", "T1", "sched", 1700000000, 1699920000,
           ⟨"T1", some "V1", [⟨2, some 28800, some 28830⟩]⟩⟩
          = some (Except.ok (some p))
        ∧ p.delayOf EventType.arrival = some 30
        ∧ p.delayOf EventType.departure
            = (⟨some (1699920000 + 28830), some (1699920000 + 28830 + 45),
                some 45⟩ : EventTimes).delay := by
  exact c3_correlation_identity EventType.arrival
    ⟨"src", "R1", "T1", "sched", 1700000000, 1699920000,
     ⟨"T1", some "V1", [⟨2, some 28800, some 28830⟩]⟩⟩
    ⟨some "S2", some 2, some ⟨some 30⟩, some ⟨some 45⟩⟩
    2 30 28800 ⟨2, some 28800, some 28830⟩ "S2" "V1"
    ⟨some (1699920000 + 28830), some (1699920000 + 28830 + 45), some 45⟩
    rfl rfl rfl (by decide) rfl (by decide) rfl

/-- Helper for C6: when no schedule stop-time carries the update's
stop_sequence, `get_event_times` returns the empty triple whatever the
event is. -/
theorem getEventTimes_no_match
    (ev : Option StopTimeEvent) (sd : Int) (et : EventType) (trip : TripModel)
    (ss : Nat)
    (hfind : trip.stopTimes.find? (fun x => x.stopSequence == ss % 65536) = none) :
    getEventTimes ev sd et trip ss = some EventTimes.empty := by
  match ev with
  | none => rfl
  | some e =>
    match h : e.delay with
    | none => simp [getEventTimes, h]
    | some d => simp [getEventTimes, h, hfind]

/-- C6: an event carrying a delay whose stop_sequence matches no
stop-time of the schedule trip yields the empty triple (no panic), the
row is skipped (`Ok(0)`, no parameter set emitted), and processing of the
remaining stop_time_updates continues unchanged. -/
theorem c6_stop_sequence_mismatch_skips_row
    (d sd : Int) (et : EventType) (trip : TripModel) (ss : Nat)
    (hfind : trip.stopTimes.find? (fun x => x.stopSequence == ss % 65536) = none) :
    getEventTimes (some ⟨some d⟩) sd et trip ss = some EventTimes.empty
    ∧ ∀ (u : StopTimeUpdate) (ctx : ImportCtx) (sid : String)
        (rest : List StopTimeUpdate),
        u.stopId = some sid → u.stopSequence = some ss →
        ctx.scheduleTrip = trip →
        processStopTimeUpdate u ctx = some (Except.ok none)
        ∧ processStopTimeUpdates (u :: rest) ctx = processStopTimeUpdates rest ctx := by
  refine ⟨getEventTimes_no_match _ _ _ _ _ hfind, ?_⟩
  intro u ctx sid rest hsid hss htrip
  have hfindc : ctx.scheduleTrip.stopTimes.find?
      (fun x => x.stopSequence == ss % 65536) = none := by rw [htrip]; exact hfind
  have ha : getEventTimes u.arrival ctx.startDate EventType.arrival
      ctx.scheduleTrip ss = some EventTimes.empty :=
    getEventTimes_no_match _ _ _ _ _ hfindc
  have hd : getEventTimes u.departure ctx.startDate EventType.departure
      ctx.scheduleTrip ss = some EventTimes.empty :=
    getEventTimes_no_match _ _ _ _ _ hfindc
  have hrow : processStopTimeUpdate u ctx = some (Except.ok none) := by
    simp [processStopTimeUpdate, hsid, hss, ha, hd, EventTimes.isEmpty,
      EventTimes.empty]
  refine ⟨hrow, ?_⟩
  show (match processStopTimeUpdate u ctx with
    | none => none
    | some (Except.error e) => some (Except.error e)
    | some (Except.ok r) =>
      match processStopTimeUpdates rest ctx with
      | none => none
      | some (Except.error e) => some (Except.error e)
      | some (Except.ok (n, ps)) =>
        some (Except.ok (n + (if r.isSome then 1 else 0), r.toList ++ ps)))
    = processStopTimeUpdates rest ctx
  rw [hrow]
  cases hrest : processStopTimeUpdates rest ctx with
  | none => rfl
  | some r2 =>
    cases r2 with
    | error e => rfl
    | ok np => rfl

/-- C6 witness: update at stop_sequence 2 against a trip whose only
stop-time has stop_sequence 5. -/
theorem c6_witness :
    getEventTimes (some ⟨some 30⟩) 1699920000 EventType.arrival
        ⟨"T1", some "V1", [⟨5, some 28800, some 28830⟩]⟩ 2
      = some EventTimes.empty
    ∧ processStopTimeUpdate ⟨some "S2", some 2, some ⟨some 30⟩, none⟩
        ⟨"src", "R1", "T1", "sched", 1700000000, 1699920000,
         ⟨"T1", some "V1", [⟨5, some 28800, some 28830⟩]⟩⟩
      = some (Except.ok none) := by
  have h := c6_stop_sequence_mismatch_skips_row 30 1699920000 EventType.arrival
    ⟨"T1", some "V1", [⟨5, some 28800, some 28830⟩]⟩ 2 (by decide)
  exact ⟨h.1, (h.2 ⟨some "S2", some 2, some ⟨some 30⟩, none⟩
    ⟨"src", "R1", "T1", "sched", 1700000000, 1699920000,
     ⟨"T1", some "V1", [⟨5, some 28800, some 28830⟩]⟩⟩ "S2" [] rfl rfl rfl).1⟩

/-- C10: when the matching schedule stop-time exists but its time for
the requested event kind is absent, `get_event_times` panics through
`expect` (modelled as `none`) instead of returning a triple, and the
panic aborts the stop_time_update loop. -/
theorem c10_missing_event_time_panics
    (d sd : Int) (et : EventType) (trip : TripModel) (ss : Nat)
    (st : StopTimeModel)
    (hfind : trip.stopTimes.find? (fun x => x.stopSequence == ss % 65536) = some st)
    (htime : st.getTime et = none) :
    getEventTimes (some ⟨some d⟩) sd et trip ss = none
    ∧ ∀ (u : StopTimeUpdate) (ctx : ImportCtx) (sid : String)
        (rest : List StopTimeUpdate),
        et = EventType.arrival → u.stopId = some sid → u.stopSequence = some ss →
        u.arrival = some ⟨some d⟩ → ctx.scheduleTrip = trip →
        ctx.startDate = sd →
        processStopTimeUpdate u ctx = none
        ∧ processStopTimeUpdates (u :: rest) ctx = none := by
  have hpanic : getEventTimes (some ⟨some d⟩) sd et trip ss = none := by
    simp [getEventTimes, hfind, htime]
  refine ⟨hpanic, ?_⟩
  intro u ctx sid rest het hsid hss harr htrip hsd
  subst het htrip hsd
  have hrow : processStopTimeUpdate u ctx = none := by
    rw [processStopTimeUpdate, hsid, hss, harr]
    simp only [hpanic]
  refine ⟨hrow, ?_⟩
  show (match processStopTimeUpdate u ctx with
    | none => none
    | some (Except.error e) => some (Except.error e)
    | some (Except.ok r) =>
      match processStopTimeUpdates rest ctx with
      | none => none
      | some (Except.error e) => some (Except.error e)
      | some (Except.ok (n, ps)) =>
        some (Except.ok (n + (if r.isSome then 1 else 0), r.toList ++ ps)))
    = none
  rw [hrow]

/-- C10 witness: arrival update at stop_sequence 2 whose matching
stop-time has no arrival_time. -/
theorem c10_witness :
    getEventTimes (some ⟨some 30⟩) 1699920000 EventType.arrival
        ⟨"T1", some "V1", [⟨2, none, some 28830⟩]⟩ 2 = none
    ∧ processStopTimeUpdate ⟨some "S2", some 2, some ⟨some 30⟩, none⟩
        ⟨"src", "R1", "T1", "sched", 1700000000, 1699920000,
         ⟨"T1", some "V1", [⟨2, none, some 28830⟩]⟩⟩ = none := by
  have h := c10_missing_event_time_panics 30 1699920000 EventType.arrival
    ⟨"T1", some "V1", [⟨2, none, some 28830⟩]⟩ 2 ⟨2, none, some 28830⟩
    (by decide) rfl
  exact ⟨h.1, (h.2 ⟨some "S2", some 2, some ⟨some 30⟩, none⟩
    ⟨"src", "R1", "T1", "sched", 1700000000, 1699920000,
     ⟨"T1", some "V1", [⟨2, none, some 28830⟩]⟩⟩ "S2" [] rfl rfl rfl rfl rfl rfl).1⟩



/-- C5 counterexample: a flush where `exec_batch` succeeds and `commit`
fails.  The call returns an error, no commit happened, yet the parameter
buffer is already empty, because the source clears `params_vec` before
`tx.commit()`.  This refutes "the buffer becomes empty only when the
transaction commits". -/
theorem c5_counterexample :
    writeToDatabase [(0 : Nat)] true false
      = { ok := false, buffer := [], committed := false } ∧
    ([] : List Nat) ≠ [0] := by
  constructor
  · rfl
  · decide

/-- C5 (amended): if `exec_batch` fails the buffer still holds all
accumulated parameter sets and nothing commits; once `exec_batch`
succeeds the buffer is cleared BEFORE the commit, so the buffer is empty
after a commit failure as well as after a successful commit. -/
theorem c5_flush_buffer_semantics :
    ∀ (α : Type) (buf : List α) (commitOk : Bool),
      writeToDatabase buf false commitOk
        = { ok := false, buffer := buf, committed := false }
      ∧ writeToDatabase buf true false
        = { ok := false, buffer := [], committed := false }
      ∧ writeToDatabase buf true true
        = { ok := true, buffer := [], committed := true } := by
  intro α buf c
  refine ⟨rfl, rfl, rfl⟩

/-- Helper for C4: on a descending-sorted list, `find?` with predicate
"strictly below rt" returns the maximum element below `rt`. -/
theorem find_desc_max : ∀ (l : List Nat) (rt x : Nat),
    l.Sorted (· ≥ ·) → l.find? (fun sd => sd < rt) = some x →
    x ∈ l ∧ x < rt ∧ ∀ y ∈ l, y < rt → y ≤ x := by
  intro l
  induction l with
  | nil => intro rt x _ h; simp [List.find?] at h
  | cons a l ih =>
    intro rt x hsorted hfind
    rw [List.sorted_cons] at hsorted
    obtain ⟨hge, hsl⟩ := hsorted
    by_cases ha : a < rt
    · have : (a :: l).find? (fun sd => sd < rt) = some a := by
        simp [List.find?, ha]
      rw [this] at hfind
      obtain rfl : a = x := by simpa using hfind
      refine ⟨List.mem_cons_self a l, ha, ?_⟩
      intro y hy _hylt
      rcases List.mem_cons.mp hy with rfl | hyl
      · exact le_refl y
      · exact hge y hyl
    · have : (a :: l).find? (fun sd => sd < rt) = l.find? (fun sd => sd < rt) := by
        simp [List.find?, ha]
      rw [this] at hfind
      obtain ⟨hmem, hlt, hmax⟩ := ih rt x hsl hfind
      refine ⟨List.mem_cons_of_mem a hmem, hlt, ?_⟩
      intro y hy hylt
      rcases List.mem_cons.mp hy with rfl | hyl
      · exact absurd hylt ha
      · exact hmax y hyl hylt

/-- C4: in a directory sweep over chronologically sorted schedule dates,
a realtime file dated at or before the earliest schedule is skipped, and
a later one is grouped with the newest schedule strictly older than the
realtime file's date. -/
theorem c4_schedule_pairing
    (scheduleDates : List Nat) (rtDate oldest : Nat)
    (hsorted : scheduleDates.Sorted (· ≤ ·))
    (hhead : scheduleDates.head? = some oldest) :
    (rtDate ≤ oldest → assignSchedule scheduleDates rtDate = none)
    ∧ (oldest < rtDate →
        ∃ sd, assignSchedule scheduleDates rtDate = some sd
          ∧ sd ∈ scheduleDates ∧ sd < rtDate
          ∧ ∀ d ∈ scheduleDates, d < rtDate → d ≤ sd) := by
  constructor
  · intro hle
    simp [assignSchedule, hhead, hle]
  · intro hgt
    have hrevsorted : scheduleDates.reverse.Sorted (· ≥ ·) := by
      rw [List.Sorted, List.pairwise_reverse]
      exact hsorted
    have holdmem : oldest ∈ scheduleDates.reverse := by
      rw [List.mem_reverse]
      exact List.mem_of_mem_head? hhead
    have hissome : (scheduleDates.reverse.find? (fun sd => sd < rtDate)).isSome := by
      rw [List.find?_isSome]
      exact ⟨oldest, holdmem, by simpa using hgt⟩
    obtain ⟨x, hx⟩ := Option.isSome_iff_exists.mp hissome
    obtain ⟨hmem, hlt, hmax⟩ := find_desc_max scheduleDates.reverse rtDate x hrevsorted hx
    refine ⟨x, ?_, List.mem_reverse.mp hmem, hlt, ?_⟩
    · simp only [assignSchedule, hhead]
      rw [if_neg (by omega : ¬ rtDate ≤ oldest)]
      exact hx
    · intro d hd hdlt
      exact hmax d (List.mem_reverse.mpr hd) hdlt

/-- C4 witness: schedules dated 1, 5, 9; a realtime file dated 1 is
skipped and one dated 7 is grouped with the maximal older schedule. -/
theorem c4_witness :
    (assignSchedule [1, 5, 9] 1 = none)
    ∧ ∃ sd, assignSchedule [1, 5, 9] 7 = some sd
        ∧ sd ∈ [1, 5, 9] ∧ sd < 7
        ∧ ∀ d ∈ [1, 5, 9], d < 7 → d ≤ sd := by
  constructor
  · exact (c4_schedule_pairing [1, 5, 9] 1 1 (by decide) rfl).1 (le_refl 1)
  · exact (c4_schedule_pairing [1, 5, 9] 7 1 (by decide) rfl).2 (by omega)



/-- Helper for C8: membership in the guarded pair emission. -/
theorem mem_pairFor (rowS rowE : DbItem) (p : Int × Int) :
    p ∈ pairFor rowS rowE ↔
    ∃ ds de, rowS.delayDeparture = some ds ∧ rowE.delayArrival = some de
      ∧ -3000 < ds ∧ ds < 3000 ∧ -3000 < de ∧ de < 3000
      ∧ p = (ds.tdiv 12 * 12, de.tdiv 12 * 12) := by
  obtain ⟨da, dd, dat, tid, sid, rv⟩ := rowS
  obtain ⟨ea, ed, edat, etid, esid, erv⟩ := rowE
  rcases dd with _ | ds
  · simp [pairFor]
  rcases ea with _ | de
  · simp [pairFor]
  simp only [pairFor]
  split_ifs with hband
  · simp only [Bool.and_eq_true, decide_eq_true_eq] at hband
    obtain ⟨⟨⟨h1, h2⟩, h3⟩, h4⟩ := hband
    simp only [List.mem_singleton, Option.some.injEq]
    constructor
    · rintro rfl
      exact ⟨ds, de, rfl, rfl, h2, h1, h4, h3, rfl⟩
    · rintro ⟨ds2, de2, rfl, rfl, _, _, _, _, rfl⟩
      rfl
  · simp only [Bool.and_eq_true, decide_eq_true_eq] at hband
    simp only [List.not_mem_nil, false_iff, not_exists, Option.some.injEq]
    rintro ds2 de2 ⟨rfl, rfl, g1, g2, g3, g4, rfl⟩
    exact hband ⟨⟨⟨g2, g1⟩, g4⟩, g3⟩



/-- Helper for C8: membership in one start row's contribution. -/
theorem mem_innerJoin (rowS : DbItem) (rowsEnd : List DbItem) (p : Int × Int) :
    p ∈ innerJoin rowS rowsEnd ↔
    ∃ rowE, rowsEnd.find? (fun rowE2 => sameVehicle rowS rowE2) = some rowE
      ∧ p ∈ pairFor rowS rowE := by
  rw [innerJoin]
  cases hfind : rowsEnd.find? (fun rowE2 => sameVehicle rowS rowE2) with
  | none => simp
  | some rowE => simp

/-- C8 (amended): a pair is kept by the stop-pair join exactly when the
start row's departure delay and the first same-(date, trip_id) end row's
arrival delay both exist and lie strictly inside (-3000, 3000) seconds;
each kept delay is truncated toward zero to a multiple of 12 (Rust
`(d / 12) * 12` on `i32`), not rounded to the nearest multiple. -/
theorem c8_join_band_and_rounding :
    ∀ (rowsStart rowsEnd : List DbItem) (p : Int × Int),
      p ∈ matchingPairs rowsStart rowsEnd ↔
      ∃ rowS ∈ rowsStart, ∃ rowE,
        rowsEnd.find? (fun rowE2 => sameVehicle rowS rowE2) = some rowE
        ∧ ∃ ds de, rowS.delayDeparture = some ds ∧ rowE.delayArrival = some de
          ∧ -3000 < ds ∧ ds < 3000 ∧ -3000 < de ∧ de < 3000
          ∧ p = (ds.tdiv 12 * 12, de.tdiv 12 * 12) := by
  intro rowsStart rowsEnd p
  induction rowsStart with
  | nil => simp [matchingPairs]
  | cons r rest ih =>
    have hstep : matchingPairs (r :: rest) rowsEnd
        = innerJoin r rowsEnd ++ matchingPairs rest rowsEnd := rfl
    rw [hstep, List.mem_append, ih]
    constructor
    · rintro (hin | ⟨rowS, hmem, rest2⟩)
      · obtain ⟨rowE, hfind, hpf⟩ := (mem_innerJoin r rowsEnd p).mp hin
        obtain ⟨ds, de, h⟩ := (mem_pairFor r rowE p).mp hpf
        exact ⟨r, List.mem_cons_self r rest, rowE, hfind, ds, de, h⟩
      · exact ⟨rowS, List.mem_cons_of_mem r hmem, rest2⟩
    · rintro ⟨rowS, hmem, rowE, hfind, ds, de, h⟩
      rcases List.mem_cons.mp hmem with rfl | hmem2
      · exact Or.inl ((mem_innerJoin rowS rowsEnd p).mpr
          ⟨rowE, hfind, (mem_pairFor rowS rowE p).mpr ⟨ds, de, h⟩⟩)
      · exact Or.inr ⟨rowS, hmem2, rowE, hfind, ds, de, h⟩

/-- C8 counterexample: departure delay 11 and arrival delay 11 are kept
as (0, 0) by the truncating division, while the nearest multiple of 12 is
12 for both, so the kept delays are not nearest-rounded as claimed. -/
theorem c8_counterexample :
    matchingPairs [⟨none, some 11, some 1, "T1", "A", 1⟩]
        [⟨some 11, none, some 1, "T1", "B", 1⟩] = [(0, 0)]
    ∧ roundToNearestMultipleOf12 11 = 12
    ∧ ¬ (((0 : Int), (0 : Int))
          = (roundToNearestMultipleOf12 11, roundToNearestMultipleOf12 11)) := by
  refine ⟨by decide, by decide, by decide⟩



/-- Unfolding equation of `recurse` at positive fuel. -/
theorem recurse_succ (yAtX xAtY : ℚ → ℚ) (count : ℚ) (fuel : Nat)
    (lower upper : ℚ) :
    recurse yAtX xAtY count (fuel + 1) lower upper =
      (if max (lower + 20) (xAtY (yAtX lower + 20 / count))
          ≤ min (upper - 20) (xAtY (yAtX upper - 20 / count)) then
        recurse yAtX xAtY count fuel lower
            ((max (lower + 20) (xAtY (yAtX lower + 20 / count))
              + min (upper - 20) (xAtY (yAtX upper - 20 / count))) / 2)
          ++ ((max (lower + 20) (xAtY (yAtX lower + 20 / count))
              + min (upper - 20) (xAtY (yAtX upper - 20 / count))) / 2)
          :: recurse yAtX xAtY count fuel
              ((max (lower + 20) (xAtY (yAtX lower + 20 / count))
                + min (upper - 20) (xAtY (yAtX upper - 20 / count))) / 2) upper
      else []) := rfl

/-- Helper for C9: unless the recursion places no marker at all, the
list lower :: markers ++ [upper] is chained by the spacing relation. -/
theorem recurse_chain (yAtX xAtY : ℚ → ℚ) (count : ℚ)
    (hmono : Monotone yAtX) (hinv : ∀ q, yAtX (xAtY q) = q) :
    ∀ (fuel : Nat) (lower upper : ℚ),
      recurse yAtX xAtY count fuel lower upper = []
      ∨ List.Chain' (markerRel yAtX count)
          (lower :: recurse yAtX xAtY count fuel lower upper ++ [upper]) := by
  intro fuel
  induction fuel with
  | zero => intro lower upper; exact Or.inl rfl
  | succ n ih =>
    intro lower upper
    rw [recurse_succ]
    by_cases hab : max (lower + 20) (xAtY (yAtX lower + 20 / count))
        ≤ min (upper - 20) (xAtY (yAtX upper - 20 / count))
    · rw [if_pos hab]
      right
      set a := max (lower + 20) (xAtY (yAtX lower + 20 / count)) with ha
      set b := min (upper - 20) (xAtY (yAtX upper - 20 / count)) with hb
      set m := (a + b) / 2 with hm
      have ham : a ≤ m := by rw [hm]; linarith
      have hmb : m ≤ b := by rw [hm]; linarith
      have hRlm : markerRel yAtX count lower m := by
        constructor
        · have h1 : lower + 20 ≤ a := by rw [ha]; exact le_max_left _ _
          linarith
        · have h1 : xAtY (yAtX lower + 20 / count) ≤ m :=
            le_trans (by rw [ha]; exact le_max_right _ _) ham
          have h2 := hmono h1
          rw [hinv] at h2
          linarith
      have hRmu : markerRel yAtX count m upper := by
        constructor
        · have h1 : b ≤ upper - 20 := by rw [hb]; exact min_le_left _ _
          linarith
        · have h1 : m ≤ xAtY (yAtX upper - 20 / count) :=
            le_trans hmb (by rw [hb]; exact min_le_right _ _)
          have h2 := hmono h1
          rw [hinv] at h2
          linarith
      have CL : List.Chain' (markerRel yAtX count)
          ((lower :: recurse yAtX xAtY count n lower m) ++ [m]) := by
        rcases ih lower m with hnil | hch
        · rw [hnil]
          exact List.chain'_pair.mpr hRlm
        · simpa using hch
      have CR : List.Chain' (markerRel yAtX count)
          (m :: (recurse yAtX xAtY count n m upper ++ [upper])) := by
        rcases ih m upper with hnil | hch
        · rw [hnil]
          exact List.chain'_pair.mpr hRmu
        · exact hch
      obtain ⟨CL1, _, CLlink⟩ := List.chain'_append.mp CL
      have hshape : lower :: (recurse yAtX xAtY count n lower m
            ++ m :: recurse yAtX xAtY count n m upper) ++ [upper]
          = (lower :: recurse yAtX xAtY count n lower m)
            ++ (m :: (recurse yAtX xAtY count n m upper ++ [upper])) := by
        simp
      rw [hshape]
      refine List.chain'_append.mpr ⟨CL1, CR, ?_⟩
      intro x hx y hy
      have hym : m = y := by simpa using hy
      subst hym
      exact CLlink x hx m (by simp)
    · rw [if_neg hab]
      exact Or.inl rfl

/-- C9 (amended): provided the recursion inserts at least one interior
marker, any two consecutive distinct markers `a < b` of the full marker
list (duplicated endpoints included) satisfy `b - a >= 20` and an
inbound-curve y-span of at least 20 / count, i.e. at least 20 data
points.  (When the recursion inserts no marker, the two distinct
endpoint markers may be arbitrarily close; see the counterexample.) -/
theorem c9_marker_spacing
    (yAtX xAtY : ℚ → ℚ) (count : ℚ) (fuel : Nat) (lower upper : ℚ)
    (hmono : Monotone yAtX) (hinv : ∀ q, yAtX (xAtY q) = q)
    (hne : recurse yAtX xAtY count fuel lower upper ≠ []) :
    List.Chain' (fun a b => a = b ∨ markerRel yAtX count a b)
      (markerList yAtX xAtY count fuel lower upper) := by
  rcases recurse_chain yAtX xAtY count hmono hinv fuel lower upper with hnil | hch
  · exact absurd hnil hne
  have hch' : List.Chain'
      (fun a b => a = b ∨ markerRel yAtX count a b)
      (lower :: recurse yAtX xAtY count fuel lower upper ++ [upper]) :=
    hch.imp (fun a b h => Or.inr h)
  have hinner : List.Chain'
      (fun a b => a = b ∨ markerRel yAtX count a b)
      ((lower :: recurse yAtX xAtY count fuel lower upper ++ [upper]) ++ [upper]) := by
    refine List.chain'_append.mpr ⟨hch', List.chain'_singleton upper, ?_⟩
    intro x hx y hy
    have hyu : upper = y := by simpa using hy
    have hxu : upper = x := by
      have h1 : (lower :: recurse yAtX xAtY count fuel lower upper ++ [upper])
          = (lower :: recurse yAtX xAtY count fuel lower upper) ++ [upper] := by simp
      rw [h1, List.getLast?_concat] at hx
      simpa using hx
    subst hyu hxu
    exact Or.inl rfl
  have hshape : markerList yAtX xAtY count fuel lower upper
      = lower :: ((lower :: recurse yAtX xAtY count fuel lower upper ++ [upper]) ++ [upper]) := by
    simp [markerList]
  rw [hshape]
  refine List.chain'_cons'.mpr ⟨?_, hinner⟩
  intro y hy
  have h2 : lower = y := by simpa using hy
  exact Or.inl h2




/-- Unfolding equation of `recurse` at exhausted fuel. -/
theorem recurse_zero (yAtX xAtY : ℚ → ℚ) (count : ℚ) (lower upper : ℚ) :
    recurse yAtX xAtY count 0 lower upper = [] := rfl


/-- C9 witness: the identity curve on [0, 100] with 100 samples and one
recursion step places the single marker 50 and the full marker list is
chained by the spacing relation. -/
theorem c9_witness :
    List.Chain' (fun a b => a = b ∨ markerRel (fun x => x) 100 a b)
      (markerList (fun x => x) (fun q => q) 100 1 0 100) := by
  have hval : recurse (fun x => x) (fun q => q) 100 1 0 100 = [50] := by
    rw [show (1 : Nat) = 0 + 1 from rfl, recurse_succ]
    norm_num
    rw [recurse_zero, recurse_zero]
    norm_num
  exact c9_marker_spacing (fun x => x) (fun q => q) 100 1 0 100
    (fun _ _ h => h) (fun _ => rfl) (by rw [hval]; simp)

/-- C9 counterexample: an inbound curve spanning x in [0, 12] (a linear
CDF with 100 samples).  The recursion inserts no marker, the marker list
is [0, 0, 12, 12], and its consecutive distinct pair (0, 12) violates the
claimed 20-second spacing. -/
theorem c9_counterexample :
    markerList (fun x => x / 12) (fun q => 12 * q) 100 1 0 12 = [0, 0, 12, 12]
    ∧ ¬ List.Chain' (fun a b => a = b ∨ markerRel (fun x => x / 12) 100 a b)
        [(0 : ℚ), 0, 12, 12] := by
  have hval : recurse (fun x => x / 12) (fun q => 12 * q) 100 1 0 12 = [] := by
    rw [show (1 : Nat) = 0 + 1 from rfl, recurse_succ]
    norm_num
  constructor
  · rw [markerList, hval]
    norm_num
  · intro h
    obtain ⟨_, h2⟩ := List.chain'_cons.mp h
    obtain ⟨h02, _⟩ := List.chain'_cons.mp h2
    rcases h02 with he | ⟨hr1, _⟩
    · norm_num at he
    · norm_num [markerRel] at hr1


end GtfsImporter
